import Mathlib

set_option autoImplicit false

/-!
Shallow embedding of the backup-script repository
(src/backup-script.py, src/backup_script_original.py).

The two components the claims are about:
* the Source Registry: the SQLite-backed `manage_backup_sources` of
  src/backup-script.py (table `sources(id, path)`), with `validate_path`;
* the Archive Builder: `perform_backup` of both files.

Modelling conventions:
* A filesystem path is a list of components (`FPath`); `Path(s).resolve()`
  is modelled by working with already-resolved absolute paths where the code
  resolves (the registry stores resolved paths and `resolve` is idempotent),
  and by an abstract `resolveFn : String → String` where a raw user string
  is resolved (`Registry.add`).
* The filesystem is a finite map from paths to node kinds; a file's kind
  records what happens when `zip_file.write` touches it: it can be read
  (with its content), raise `PermissionError`, or raise some other OS error.
* `datetime.now()` is an explicit `DateTime` argument; `strftime` directives
  `%d %m %Y %H %M %S` are embedded as decimal renderings over `Nat`.
-/

namespace BackupScript

/-! ## Source Registry (src/backup-script.py) -/

/-- Characters of the allow-list `[a-zA-Z0-9_\-\/\.\\: ]` in
`VALID_PATH_REGEX` (src/backup-script.py:314). -/
def allowedChar (c : Char) : Bool :=
  ('a' ≤ c && c ≤ 'z') || ('A' ≤ c && c ≤ 'Z') || ('0' ≤ c && c ≤ '9') ||
  c == '_' || c == '-' || c == '/' || c == '.' || c == '\\' || c == ':' || c == ' '

/-- Predicate for `[a-zA-Z0-9_\-\/\.\\: ]+` matching a whole character run:
nonempty and every character allow-listed. -/
def matchesCore (cs : List Char) : Bool :=
  !cs.isEmpty && cs.all allowedChar

/-- Models `validate_path` (src/backup-script.py:37-44):
`bool(re.match(VALID_PATH_REGEX, path))` with
`VALID_PATH_REGEX = r"^[a-zA-Z0-9_\-\/\.\\: ]+$"`.
In Python, `$` matches at the end of the string or just before a single
newline at the end of the string, so the regex also accepts a string whose
final character is a newline provided everything before it is an allow-listed
nonempty run. -/
def validate_path (s : String) : Bool :=
  matchesCore s.data ||
    (match s.data.getLast? with
     | some c => c == '\n' && matchesCore s.data.dropLast
     | none => false)

/-- The registry state: the `sources(id, path)` SQLite table, in storage
order, together with the next id the `AUTOINCREMENT` column will allocate. -/
structure Registry where
  nextId : Nat
  rows : List (Nat × String)
deriving DecidableEq

/-- Error outcomes of the add action, as the spec's taxonomy names them. -/
inductive AddError where
  | invalidFormat
  | notFound
deriving DecidableEq

/-- Models `SELECT id, path FROM sources` (src/backup-script.py:110). -/
def Registry.listRows (r : Registry) : List (Nat × String) :=
  r.rows

/-- Identifiers currently present in the registry. -/
def Registry.ids (r : Registry) : List Nat :=
  r.rows.map Prod.fst

/-- Models the add action of `manage_backup_sources`
(src/backup-script.py:124-141): if `validate_path` rejects the raw string the
loop continues with no state change (`InvalidFormat`); otherwise the path is
resolved (`resolveFn` models `Path(path).resolve()`) and, if it exists on the
filesystem (`existsFn` models `path.exists()`), the resolved string is
inserted with a fresh id; a non-existent resolved path is reported with no
state change (`NotFound`). The returned pair is the registry after the action
and the observable outcome. -/
def Registry.add (resolveFn : String → String) (existsFn : String → Bool)
    (r : Registry) (p : String) : Registry × Except AddError (Nat × String) :=
  if !validate_path p then
    (r, .error .invalidFormat)
  else
    let rp := resolveFn p
    if existsFn rp then
      ({ nextId := r.nextId + 1, rows := r.rows ++ [(r.nextId, rp)] },
       .ok (r.nextId, rp))
    else
      (r, .error .notFound)

/-- Observable outcome of the remove action. The constructor
`notFoundError` exists so the spec's claimed behaviour can be stated; the
code's remove action never produces it. -/
inductive RemoveOutcome where
  | success (r : Registry)
  | notFoundError (r : Registry)
deriving DecidableEq

/-- Registry state after the remove action, whatever the outcome. -/
def RemoveOutcome.registry : RemoveOutcome → Registry
  | .success r => r
  | .notFoundError r => r

/-- True exactly when the outcome is the not-found error. -/
def RemoveOutcome.isNotFoundError : RemoveOutcome → Bool
  | .success _ => false
  | .notFoundError _ => true

/-- Models the remove action of `manage_backup_sources`
(src/backup-script.py:142-153): it executes
`DELETE FROM sources WHERE id = ?` unconditionally, commits, and prints the
success message whether or not a row with that id existed; there is no
existence check, so no branch reports a missing id. -/
def Registry.remove (r : Registry) (i : Nat) : RemoveOutcome :=
  .success { r with rows := r.rows.filter (fun row => row.1 ≠ i) }

/-! ## Archive Builder (`perform_backup`) -/

/-- An absolute, resolved filesystem path, as its list of components. -/
abbrev FPath := List String

/-- What happens when the builder reads a regular file for
`zip_file.write`: the read succeeds with the file's content, raises
`PermissionError` (the only exception the per-file handlers catch,
src/backup-script.py:229,237), or raises some other OS error. -/
inductive FileAccess where
  | readable (content : String)
  | permDenied
  | ioError
deriving DecidableEq

/-- A filesystem node: a directory or a regular file. -/
inductive FKind where
  | dir
  | file (acc : FileAccess)
deriving DecidableEq

/-- Node kinds that do not raise an uncaught exception when written:
directories, readable files, and permission-denied files (whose
`PermissionError` is caught per-file). -/
def FKind.nonFatal : FKind → Bool
  | .file .ioError => false
  | _ => true

/-- A finite filesystem: a finite map from resolved paths to node kinds,
in a fixed enumeration order (which also fixes the `rglob` order). -/
structure FS where
  entries : List (FPath × FKind)
deriving DecidableEq

/-- Kind stored at a path, if any. -/
def FS.lookup (fs : FS) (p : FPath) : Option FKind :=
  (fs.entries.find? (fun e => decide (e.1 = p))).map Prod.snd

/-- Models `source_path.exists()` (src/backup-script.py:218). -/
def FS.pathExists (fs : FS) (p : FPath) : Bool :=
  (fs.lookup p).isSome

/-- Models `source_path.is_dir()` (src/backup-script.py:223). -/
def FS.isDirAt (fs : FS) (p : FPath) : Bool :=
  decide (fs.lookup p = some FKind.dir)

/-- True when `p` is a strict descendant of the directory `d`. -/
def isStrictlyUnder (d p : FPath) : Bool :=
  decide (p.take d.length = d ∧ d.length < p.length)

/-- Models `source_path.rglob('*')` (src/backup-script.py:224): every path
reachable by recursive descent strictly below `d` — files and directories
alike — in the filesystem's enumeration order. -/
def FS.rglob (fs : FS) (d : FPath) : List FPath :=
  (fs.entries.map Prod.fst).filter (fun p => isStrictlyUnder d p)

/-- Models `source_path.parent`. -/
def parentDir (p : FPath) : FPath :=
  p.dropLast

/-- Models `file.relative_to(base)` for `base` a prefix of the path. -/
def relativeTo (base p : FPath) : FPath :=
  p.drop base.length

/-- Models `source_path.name` used as a single-component archive path
(src/backup-script.py:234). -/
def baseName (p : FPath) : FPath :=
  p.drop (p.length - 1)

/-- One member of the zip archive: its archive-internal path, whether it is
a directory entry, and (for files) the stored content. -/
structure ZipEntry where
  arcname : FPath
  isDirEntry : Bool
  content : String
deriving DecidableEq

/-- The entry `zip_file.write(p, arc)` appends for a node that does not
raise: a directory entry for directories, a content entry for readable
files. (Unused fallback for the raising kinds.) -/
def mkEntry (fs : FS) (arc p : FPath) : ZipEntry :=
  match fs.lookup p with
  | some FKind.dir => ⟨arc, true, ""⟩
  | some (FKind.file (FileAccess.readable c)) => ⟨arc, false, c⟩
  | _ => ⟨arc, false, ""⟩

/-- The fatal errors: exceptions that reach the outer
`except Exception` handler of `perform_backup` (src/backup-script.py:249). -/
inductive BuildError where
  | openFailed
  | fileReadError (p : FPath)
  | finalizeFailed
deriving DecidableEq

/-- In-flight builder state: zip members written so far and the
`skipped_files` list. -/
structure BuildState where
  zip : List ZipEntry
  skipped : List FPath
deriving DecidableEq

/-- Models one `zip_file.write(p, arc)` wrapped in `try/except
PermissionError` (src/backup-script.py:225-239): a readable file or a
directory appends a zip member; a permission-denied file is appended to
`skipped_files` and the loop continues; any other error (another OS error,
or the file having vanished) is not caught here and aborts the build. -/
def writeOne (fs : FS) (arc p : FPath) (st : BuildState) :
    BuildState ⊕ (BuildState × BuildError) :=
  match fs.lookup p with
  | some FKind.dir => .inl { st with zip := st.zip ++ [⟨arc, true, ""⟩] }
  | some (FKind.file (FileAccess.readable c)) =>
      .inl { st with zip := st.zip ++ [⟨arc, false, c⟩] }
  | some (FKind.file FileAccess.permDenied) =>
      .inl { st with skipped := st.skipped ++ [p] }
  | some (FKind.file FileAccess.ioError) => .inr (st, .fileReadError p)
  | none => .inr (st, .fileReadError p)

/-- Models the `for file in source_path.rglob('*')` loop
(src/backup-script.py:224-231): each path is written with arcname
`file.relative_to(source_path.parent)`; an uncaught exception aborts the
whole loop. -/
def writeAll (fs : FS) (base : FPath) (ps : List FPath) (st : BuildState) :
    BuildState ⊕ (BuildState × BuildError) :=
  match ps with
  | [] => .inl st
  | p :: rest =>
    match writeOne fs (relativeTo base p) p st with
    | .inl st' => writeAll fs base rest st'
    | .inr e => .inr e

/-- Models the body of `for source in sources` for one source
(src/backup-script.py:216-239): a non-existent source is appended to
`skipped_files` and the loop continues; a directory source is traversed
with `rglob` using parent-relative arcnames; any other source is written
under its base name. -/
def processSource (fs : FS) (st : BuildState) (source : FPath) :
    BuildState ⊕ (BuildState × BuildError) :=
  if !fs.pathExists source then
    .inl { st with skipped := st.skipped ++ [source] }
  else if fs.isDirAt source then
    writeAll fs (parentDir source) (fs.rglob source) st
  else
    writeOne fs (baseName source) source st

/-- Models the `for source in sources` loop (src/backup-script.py:215-239):
sources in order, an uncaught exception aborting the remaining ones. -/
def processSources (fs : FS) (st : BuildState) :
    List FPath → BuildState ⊕ (BuildState × BuildError)
  | [] => .inl st
  | s :: rest =>
    match processSource fs st s with
    | .inl st' => processSources fs st' rest
    | .inr e => .inr e

/-! ## Timestamp and archive name -/

/-- The moment `datetime.now()` returns when the build begins. -/
structure DateTime where
  day : Nat
  month : Nat
  year : Nat
  hour : Nat
  minute : Nat
  second : Nat
deriving DecidableEq

/-- Field ranges `datetime` guarantees (years restricted to four decimal
digits, which covers every timestamp `datetime.now()` can produce today). -/
def DateTime.Valid (t : DateTime) : Prop :=
  1 ≤ t.day ∧ t.day ≤ 31 ∧ 1 ≤ t.month ∧ t.month ≤ 12 ∧
  1000 ≤ t.year ∧ t.year ≤ 9999 ∧ t.hour ≤ 23 ∧ t.minute ≤ 59 ∧ t.second ≤ 59

instance (t : DateTime) : Decidable t.Valid := by
  unfold DateTime.Valid; infer_instance

/-- The decimal digit character for `n % 10`. -/
def digitChar (n : Nat) : Char :=
  Char.ofNat (48 + n % 10)

/-- Decimal rendering of a natural number, most significant digit first. -/
def natDigits (n : Nat) : List Char :=
  if n < 10 then [digitChar n] else natDigits (n / 10) ++ [digitChar n]
decreasing_by exact Nat.div_lt_self (by omega) (by omega)

/-- Zero-padding to width two: the rendering the numeric `strftime`
directives `%d %m %H %M %S` apply to their (two-digit) fields. -/
def pad2 (n : Nat) : List Char :=
  if n < 10 then '0' :: natDigits n else natDigits n

/-- Models `datetime.now().strftime("%d%m%Y_%H%M%S")`
(src/backup-script.py:205): a fixed numeric layout built only from decimal
digits and an underscore, independent of any locale. -/
def timestampStr (t : DateTime) : List Char :=
  pad2 t.day ++ pad2 t.month ++ natDigits t.year ++
    '_' :: (pad2 t.hour ++ pad2 t.minute ++ pad2 t.second)

/-- Models `backup_name = f"backup_{timestamp}.zip"`
(src/backup-script.py:206). -/
def backupName (t : DateTime) : String :=
  "backup_" ++ String.mk (timestampStr t) ++ ".zip"

/-! ## The build itself -/

/-- The build report of the spec: archive path, skipped paths, success flag,
and (on failure) the triggering error. -/
structure BuildReport where
  archivePath : FPath
  skippedPaths : List FPath
  succeeded : Bool
  buildError : Option BuildError
deriving DecidableEq

/-- Everything observable after one `perform_backup` run: the report, the
archive file on disk (`none` when no file was ever created, otherwise its
members — possibly partial when the build died mid-write), and whether the
builder itself created the destination directory. -/
structure BuildOutcome where
  report : BuildReport
  archiveOnDisk : Option (List ZipEntry)
  createdDestDir : Bool
deriving DecidableEq

/-- Environment faults outside the filesystem map: whether
`ZipFile(backup_zip_path, 'w')` succeeds (destination directory present and
writable, file creatable), and whether closing the archive at the end of the
`with` block succeeds (e.g. disk not full). -/
structure IOEnv where
  destOpenOk : Bool
  finalizeOk : Bool
deriving DecidableEq

/-- Models `perform_backup(sources, destination)` of src/backup-script.py
(lines 195-251). The archive path is `Path(destination) / backup_name` with
the timestamp taken when the build begins. If opening the zip raises, no
file exists and the outer handler reports failure. Otherwise the source loop
runs; an uncaught exception leaves the partially written file on disk and is
reported as failure, as is a failure while finalizing; if the `with` block
completes the build is a success regardless of `skipped_files`. The function
never creates the destination directory. -/
def perform_backup (fs : FS) (env : IOEnv) (sources : List FPath)
    (destination : FPath) (now : DateTime) : BuildOutcome :=
  let path := destination ++ [backupName now]
  if !env.destOpenOk then
    { report := ⟨path, [], false, some .openFailed⟩,
      archiveOnDisk := none, createdDestDir := false }
  else
    match processSources fs ⟨[], []⟩ sources with
    | .inl st =>
      if env.finalizeOk then
        { report := ⟨path, st.skipped, true, none⟩,
          archiveOnDisk := some st.zip, createdDestDir := false }
      else
        { report := ⟨path, st.skipped, false, some .finalizeFailed⟩,
          archiveOnDisk := some st.zip, createdDestDir := false }
    | .inr (st, e) =>
      { report := ⟨path, st.skipped, false, some e⟩,
        archiveOnDisk := some st.zip, createdDestDir := false }

/-- Models `perform_backup` of src/backup_script_original.py (lines
180-245). It differs from the src/backup-script.py version in its prologue
(lines 188-197): the destination is resolved and, when it does not exist,
the builder itself runs `destination.mkdir(parents=True, exist_ok=True)`;
if that raises `PermissionError` the function returns with no report and no
archive (`none`). The rest of the body is the same source loop, so it is
shared, with the created-destination flag recording the mkdir. -/
def perform_backup_original (fs : FS) (env : IOEnv)
    (destExists destCreatable : Bool) (sources : List FPath)
    (destination : FPath) (now : DateTime) : Option BuildOutcome :=
  if !destExists && !destCreatable then
    none
  else
    some { perform_backup fs env sources destination now with
             createdDestDir := !destExists }

/-! ## Characterisation of a fault-free loop

Helper functions describing, source by source, what the loop contributes to
the archive and to `skipped_files` when no uncaught exception occurs. -/

/-- True when writing `p` raises a `PermissionError`, which the per-file
handler catches by appending `p` to `skipped_files`. -/
def skippedAt (fs : FS) (p : FPath) : Bool :=
  decide (fs.lookup p = some (FKind.file FileAccess.permDenied))

/-- True when processing the source `s` raises no uncaught exception:
the source is missing (skipped), or is a directory all of whose reachable
paths are non-fatal, or is a non-fatal file. -/
def sourceNonFatal (fs : FS) (s : FPath) : Bool :=
  !fs.pathExists s ||
    (if fs.isDirAt s then
       (fs.rglob s).all (fun p => (fs.lookup p).any FKind.nonFatal)
     else (fs.lookup s).any FKind.nonFatal)

/-- Zip members a fault-free pass over the source `s` appends: nothing for a
missing source; for a directory, one member per reachable non-skipped path,
named relative to the directory's parent; for a file, one member named by
its base name unless permission-skipped. -/
def zipOfSource (fs : FS) (s : FPath) : List ZipEntry :=
  if !fs.pathExists s then []
  else if fs.isDirAt s then
    ((fs.rglob s).filter (fun p => !skippedAt fs p)).map
      (fun p => mkEntry fs (relativeTo (parentDir s) p) p)
  else if skippedAt fs s then []
  else [mkEntry fs (baseName s) s]

/-- Paths a fault-free pass over the source `s` appends to `skipped_files`:
the source itself when missing or permission-skipped, the permission-denied
reachable paths for a directory. -/
def skipOfSource (fs : FS) (s : FPath) : List FPath :=
  if !fs.pathExists s then [s]
  else if fs.isDirAt s then (fs.rglob s).filter (fun p => skippedAt fs p)
  else if skippedAt fs s then [s]
  else []

/-! ## Concrete fixtures used by witnesses and counterexamples -/

/-- A concrete build instant. -/
def t0 : DateTime := ⟨5, 10, 2026, 12, 30, 45⟩

/-- A filesystem with one regular file `/r/F.txt`. -/
def fsC1 : FS :=
  ⟨[(["r"], .dir), (["r", "F.txt"], .file (.readable "hello"))]⟩

/-- The spec's directory example: `D` containing `a.txt` and `sub/b.txt`. -/
def fsC2 : FS :=
  ⟨[(["r"], .dir), (["r", "D"], .dir),
    (["r", "D", "a.txt"], .file (.readable "A")),
    (["r", "D", "sub"], .dir),
    (["r", "D", "sub", "b.txt"], .file (.readable "B"))]⟩

/-- A directory holding a readable file, then a file whose read raises a
non-permission OS error, then another readable file. -/
def fsC5 : FS :=
  ⟨[(["r"], .dir), (["r", "D"], .dir),
    (["r", "D", "a.txt"], .file (.readable "A")),
    (["r", "D", "bad.txt"], .file .ioError),
    (["r", "D", "c.txt"], .file (.readable "C"))]⟩

/-- A directory holding a readable file, a permission-denied file, and a
further readable file. -/
def fsPerm : FS :=
  ⟨[(["r"], .dir), (["r", "D"], .dir),
    (["r", "D", "a.txt"], .file (.readable "A")),
    (["r", "D", "locked.txt"], .file .permDenied),
    (["r", "D", "c.txt"], .file (.readable "C"))]⟩

/-! ## General lemmas -/

theorem lookup_mem_keys {fs : FS} {p : FPath} {k : FKind}
    (h : fs.lookup p = some k) : p ∈ fs.entries.map Prod.fst := by
  unfold FS.lookup at h
  rcases Option.map_eq_some'.mp h with ⟨e, he, hk⟩
  have hmem := List.mem_of_find?_eq_some he
  have hpred := List.find?_some he
  have heq : e.1 = p := by simpa using hpred
  exact heq ▸ List.mem_map_of_mem Prod.fst hmem

theorem writeAll_no_fatal (fs : FS) (base : FPath) :
    ∀ (ps : List FPath) (st : BuildState),
      (∀ p ∈ ps, (fs.lookup p).any FKind.nonFatal = true) →
      writeAll fs base ps st = .inl
        ⟨st.zip ++ (ps.filter (fun p => !skippedAt fs p)).map
            (fun p => mkEntry fs (relativeTo base p) p),
         st.skipped ++ ps.filter (fun p => skippedAt fs p)⟩
  | [], st, _ => by simp [writeAll]
  | p :: rest, st, h => by
    have hp : (fs.lookup p).any FKind.nonFatal = true := h p (by simp)
    have hrest : ∀ q ∈ rest, (fs.lookup q).any FKind.nonFatal = true :=
      fun q hq => h q (by simp [hq])
    cases hl : fs.lookup p with
    | none => rw [hl] at hp; simp [Option.any] at hp
    | some k =>
      cases k with
      | dir =>
        have hsk : skippedAt fs p = false := by simp [skippedAt, hl]
        simp only [writeAll, writeOne, hl]
        rw [writeAll_no_fatal fs base rest _ hrest]
        simp [List.filter_cons, hsk, mkEntry, hl, List.append_assoc]
      | file acc =>
        cases acc with
        | readable c =>
          have hsk : skippedAt fs p = false := by simp [skippedAt, hl]
          simp only [writeAll, writeOne, hl]
          rw [writeAll_no_fatal fs base rest _ hrest]
          simp [List.filter_cons, hsk, mkEntry, hl, List.append_assoc]
        | permDenied =>
          have hsk : skippedAt fs p = true := by simp [skippedAt, hl]
          simp only [writeAll, writeOne, hl]
          rw [writeAll_no_fatal fs base rest _ hrest]
          simp [List.filter_cons, hsk, List.append_assoc]
        | ioError => rw [hl] at hp; simp [Option.any, FKind.nonFatal] at hp

theorem processSource_no_fatal (fs : FS) (st : BuildState) (s : FPath)
    (h : sourceNonFatal fs s = true) :
    processSource fs st s =
      .inl ⟨st.zip ++ zipOfSource fs s, st.skipped ++ skipOfSource fs s⟩ := by
  by_cases he : fs.pathExists s = true
  · by_cases hd : fs.isDirAt s = true
    · have hall : ∀ p ∈ fs.rglob s, (fs.lookup p).any FKind.nonFatal = true := by
        unfold sourceNonFatal at h
        rw [he, hd] at h
        simpa using h
      simp only [processSource, he, hd, Bool.not_true, Bool.false_eq_true,
        if_false, if_true]
      rw [writeAll_no_fatal fs (parentDir s) (fs.rglob s) st hall]
      simp [zipOfSource, skipOfSource, he, hd]
    · have hb : fs.isDirAt s = false := by simpa using hd
      have hk : ∃ k, fs.lookup s = some k := by
        unfold FS.pathExists at he
        exact Option.isSome_iff_exists.mp he
      obtain ⟨k, hkl⟩ := hk
      have hnf : FKind.nonFatal k = true := by
        unfold sourceNonFatal at h
        rw [he, hb, hkl] at h
        simpa [Option.any] using h
      cases k with
      | dir =>
        exfalso
        have : fs.isDirAt s = true := by simp [FS.isDirAt, hkl]
        rw [hb] at this
        exact Bool.false_ne_true this
      | file acc =>
        cases acc with
        | readable c =>
          have hsk : skippedAt fs s = false := by simp [skippedAt, hkl]
          simp [processSource, he, hb, writeOne, hkl, zipOfSource,
            skipOfSource, hsk, mkEntry]
        | permDenied =>
          have hsk : skippedAt fs s = true := by simp [skippedAt, hkl]
          simp [processSource, he, hb, writeOne, hkl, zipOfSource,
            skipOfSource, hsk]
        | ioError => simp [FKind.nonFatal] at hnf
  · have hb : fs.pathExists s = false := by simpa using he
    simp [processSource, hb, zipOfSource, skipOfSource]

theorem processSources_no_fatal (fs : FS) :
    ∀ (sources : List FPath) (st : BuildState),
      (∀ s ∈ sources, sourceNonFatal fs s = true) →
      processSources fs st sources = .inl
        ⟨st.zip ++ (sources.map (zipOfSource fs)).flatten,
         st.skipped ++ (sources.map (skipOfSource fs)).flatten⟩
  | [], st, _ => by simp [processSources]
  | s :: rest, st, h => by
    have hs : sourceNonFatal fs s = true := h s (by simp)
    have hrest : ∀ q ∈ rest, sourceNonFatal fs q = true :=
      fun q hq => h q (by simp [hq])
    have hrec := processSources_no_fatal fs rest
      ⟨st.zip ++ zipOfSource fs s, st.skipped ++ skipOfSource fs s⟩ hrest
    simp only [processSources]
    rw [processSource_no_fatal fs st s hs]
    show processSources fs
      ⟨st.zip ++ zipOfSource fs s, st.skipped ++ skipOfSource fs s⟩ rest = _
    rw [hrec]
    simp [List.append_assoc]

theorem perform_backup_ok (fs : FS) (sources : List FPath) (dest : FPath)
    (t : DateTime) (h : ∀ s ∈ sources, sourceNonFatal fs s = true) :
    perform_backup fs ⟨true, true⟩ sources dest t =
      { report := ⟨dest ++ [backupName t],
          (sources.map (skipOfSource fs)).flatten, true, none⟩,
        archiveOnDisk := some (sources.map (zipOfSource fs)).flatten,
        createdDestDir := false } := by
  simp [perform_backup, processSources_no_fatal fs sources ⟨[], []⟩ h]

theorem digitChar_isDigit (n : Nat) : (digitChar n).isDigit = true := by
  have hk : n % 10 < 10 := Nat.mod_lt _ (by omega)
  unfold digitChar
  generalize n % 10 = k at hk
  interval_cases k <;> decide

theorem natDigits_of_lt (n : Nat) (h : n < 10) : natDigits n = [digitChar n] := by
  unfold natDigits
  simp [h]

theorem natDigits_two (n : Nat) (h1 : 10 ≤ n) (h2 : n ≤ 99) :
    natDigits n = [digitChar (n / 10), digitChar n] := by
  have hd : n / 10 < 10 := (Nat.div_lt_iff_lt_mul (by norm_num)).mpr (by omega)
  unfold natDigits
  have hn : ¬ n < 10 := by omega
  rw [if_neg hn, natDigits_of_lt _ hd]
  rfl

theorem natDigits_three (n : Nat) (h1 : 100 ≤ n) (h2 : n ≤ 999) :
    natDigits n = [digitChar (n / 100), digitChar (n / 10), digitChar n] := by
  have h10 : 10 ≤ n / 10 := (Nat.le_div_iff_mul_le (by norm_num)).mpr (by omega)
  have h10' : n / 10 ≤ 99 := by
    have : n / 10 < 100 := (Nat.div_lt_iff_lt_mul (by norm_num)).mpr (by omega)
    omega
  unfold natDigits
  have hn : ¬ n < 10 := by omega
  rw [if_neg hn, natDigits_two _ h10 h10', Nat.div_div_eq_div_mul]
  rfl

theorem natDigits_four (n : Nat) (h1 : 1000 ≤ n) (h2 : n ≤ 9999) :
    natDigits n =
      [digitChar (n / 1000), digitChar (n / 100), digitChar (n / 10),
       digitChar n] := by
  have h10 : 100 ≤ n / 10 := (Nat.le_div_iff_mul_le (by norm_num)).mpr (by omega)
  have h10' : n / 10 ≤ 999 := by
    have : n / 10 < 1000 := (Nat.div_lt_iff_lt_mul (by norm_num)).mpr (by omega)
    omega
  unfold natDigits
  have hn : ¬ n < 10 := by omega
  rw [if_neg hn, natDigits_three _ h10 h10', Nat.div_div_eq_div_mul,
    Nat.div_div_eq_div_mul]
  rfl

theorem pad2_eq (n : Nat) (h : n ≤ 99) :
    pad2 n = [digitChar (n / 10), digitChar n] := by
  unfold pad2
  by_cases h1 : n < 10
  · rw [if_pos h1, natDigits_of_lt _ h1]
    have hz : n / 10 = 0 := Nat.div_eq_of_lt h1
    rw [hz]
    have : digitChar 0 = '0' := by decide
    rw [this]
  · rw [if_neg h1, natDigits_two n (by omega) h]

theorem pad2_length (n : Nat) (h : n ≤ 99) : (pad2 n).length = 2 := by
  rw [pad2_eq n h]
  rfl

theorem pad2_digits (n : Nat) (h : n ≤ 99) :
    (pad2 n).all Char.isDigit = true := by
  rw [pad2_eq n h]
  simp [digitChar_isDigit]

theorem natDigits_year_length (y : Nat) (h1 : 1000 ≤ y) (h2 : y ≤ 9999) :
    (natDigits y).length = 4 := by
  rw [natDigits_four y h1 h2]
  rfl

theorem natDigits_year_digits (y : Nat) (h1 : 1000 ≤ y) (h2 : y ≤ 9999) :
    (natDigits y).all Char.isDigit = true := by
  rw [natDigits_four y h1 h2]
  simp [digitChar_isDigit]

/-! ## Claim theorems -/

/-- C1: for a source list of one existing regular file `F` (content `c`) and
one non-existent path `M`, a build on an existing writable destination
finalizes the archive with `F`'s contents under its base name, reports the
skip list `[M]`, and succeeds — the non-empty skip list does not make the
build fail. -/
theorem C1_file_plus_missing_source (fs : FS) (F M dest : FPath) (c : String)
    (t : DateTime)
    (hF : fs.lookup F = some (FKind.file (FileAccess.readable c)))
    (hM : fs.lookup M = none) :
    ((perform_backup fs ⟨true, true⟩ [F, M] dest t).report.succeeded = true) ∧
    ((perform_backup fs ⟨true, true⟩ [F, M] dest t).report.skippedPaths
      = [M]) ∧
    ((perform_backup fs ⟨true, true⟩ [F, M] dest t).archiveOnDisk =
      some [⟨baseName F, false, c⟩]) := by
  have h : ∀ s ∈ [F, M], sourceNonFatal fs s = true := by
    intro s hs
    simp only [List.mem_cons, List.mem_singleton, List.not_mem_nil,
      or_false] at hs
    rcases hs with rfl | rfl
    · simp [sourceNonFatal, FS.pathExists, FS.isDirAt, hF, Option.any,
        FKind.nonFatal]
    · simp [sourceNonFatal, FS.pathExists, hM]
  rw [perform_backup_ok fs [F, M] dest t h]
  simp [zipOfSource, skipOfSource, FS.pathExists, FS.isDirAt, skippedAt,
    mkEntry, hF, hM]

/-- Witness for C1 on the concrete filesystem `fsC1`. -/
theorem C1_witness :
    ((perform_backup fsC1 ⟨true, true⟩ [["r", "F.txt"], ["r", "gone"]]
        ["dst"] t0).report.succeeded = true) ∧
    ((perform_backup fsC1 ⟨true, true⟩ [["r", "F.txt"], ["r", "gone"]]
        ["dst"] t0).report.skippedPaths = [["r", "gone"]]) ∧
    ((perform_backup fsC1 ⟨true, true⟩ [["r", "F.txt"], ["r", "gone"]]
        ["dst"] t0).archiveOnDisk =
      some [⟨baseName ["r", "F.txt"], false, "hello"⟩]) :=
  C1_file_plus_missing_source fsC1 ["r", "F.txt"] ["r", "gone"] ["dst"]
    "hello" t0 (by decide) (by decide)

/-- C2 as frozen is false: for the example directory `D` containing `a.txt`
and `sub/b.txt`, the archive's internal entries are not exactly `D/a.txt`
and `D/sub/b.txt` — `rglob('*')` also yields the subdirectory `sub`, which
is written as the additional entry `D/sub`. -/
theorem C2_counterexample :
    (((perform_backup fsC2 ⟨true, true⟩ [["r", "D"]] ["dst"] t0).archiveOnDisk.getD []).map
        ZipEntry.arcname =
      [["D", "a.txt"], ["D", "sub"], ["D", "sub", "b.txt"]]) ∧
    ¬ (((perform_backup fsC2 ⟨true, true⟩ [["r", "D"]] ["dst"] t0).archiveOnDisk.getD []).map
        ZipEntry.arcname =
      [["D", "a.txt"], ["D", "sub", "b.txt"]]) ∧
    ¬ ((["D", "sub"] : FPath) ∈
        ([["D", "a.txt"], ["D", "sub", "b.txt"]] : List FPath)) := by
  decide

/-- C2 amended: for a directory source `D` all of whose reachable paths are
readable files or directories, the archive's entries are exactly the paths
`rglob` reaches under `D` — subdirectories included — each named relative to
the parent of `D` (for the example `D` with `a.txt` and `sub/b.txt` the
entries are `D/a.txt`, `D/sub`, `D/sub/b.txt`); a single-file source is
archived under just its base name. -/
theorem C2_parent_relative_entries (fs : FS) (D F dest : FPath) (c : String)
    (t : DateTime)
    (hD : fs.isDirAt D = true)
    (hclean : ∀ p ∈ fs.rglob D, (fs.lookup p).any FKind.nonFatal = true)
    (hnoskip : ∀ p ∈ fs.rglob D, skippedAt fs p = false)
    (hF : fs.lookup F = some (FKind.file (FileAccess.readable c))) :
    ((perform_backup fs ⟨true, true⟩ [D] dest t).archiveOnDisk =
      some ((fs.rglob D).map
        (fun p => mkEntry fs (relativeTo (parentDir D) p) p))) ∧
    ((perform_backup fs ⟨true, true⟩ [F] dest t).archiveOnDisk =
      some [⟨baseName F, false, c⟩]) ∧
    (((perform_backup fsC2 ⟨true, true⟩ [["r", "D"]] ["dst"] t0).archiveOnDisk.getD []).map
        ZipEntry.arcname =
      [["D", "a.txt"], ["D", "sub"], ["D", "sub", "b.txt"]]) := by
  have hDex : fs.pathExists D = true := by
    unfold FS.isDirAt at hD
    unfold FS.pathExists
    rcases hl : fs.lookup D with _ | k
    · rw [hl] at hD; simp at hD
    · rfl
  refine ⟨?_, ?_, by decide⟩
  · have h : ∀ s ∈ [D], sourceNonFatal fs s = true := by
      intro s hs
      simp only [List.mem_singleton] at hs
      subst hs
      simp only [sourceNonFatal, hDex, hD, if_true, Bool.not_true,
        Bool.false_or]
      exact List.all_eq_true.mpr hclean
    rw [perform_backup_ok fs [D] dest t h]
    simp only [List.map_cons, List.map_nil, List.flatten_cons,
      List.flatten_nil, List.append_nil, Option.some.injEq]
    unfold zipOfSource
    rw [hDex, hD]
    simp only [Bool.not_true, Bool.false_eq_true, if_false, if_true]
    congr 1
    exact List.filter_eq_self.mpr (by intro p hp; simp [hnoskip p hp])
  · have h : ∀ s ∈ [F], sourceNonFatal fs s = true := by
      intro s hs
      simp only [List.mem_singleton] at hs
      subst hs
      simp [sourceNonFatal, FS.pathExists, FS.isDirAt, hF, Option.any,
        FKind.nonFatal]
    rw [perform_backup_ok fs [F] dest t h]
    simp [zipOfSource, skipOfSource, FS.pathExists, FS.isDirAt, skippedAt,
      mkEntry, hF]

/-- Witness for the amended C2 on the concrete filesystem `fsC2`. -/
theorem C2_witness :
    ((perform_backup fsC2 ⟨true, true⟩ [["r", "D"]] ["dst"] t0).archiveOnDisk =
      some ((fsC2.rglob ["r", "D"]).map
        (fun p => mkEntry fsC2 (relativeTo (parentDir ["r", "D"]) p) p))) ∧
    ((perform_backup fsC2 ⟨true, true⟩ [["r", "D", "a.txt"]] ["dst"] t0).archiveOnDisk =
      some [⟨baseName ["r", "D", "a.txt"], false, "A"⟩]) ∧
    (((perform_backup fsC2 ⟨true, true⟩ [["r", "D"]] ["dst"] t0).archiveOnDisk.getD []).map
        ZipEntry.arcname =
      [["D", "a.txt"], ["D", "sub"], ["D", "sub", "b.txt"]]) :=
  C2_parent_relative_entries fsC2 ["r", "D"] ["r", "D", "a.txt"] ["dst"] "A"
    t0 (by decide) (by decide) (by decide) (by decide)

/-- C10: the recursive traversal of a directory source `D` enumerates
subdirectories as well as files, so (in a fault-free run) every directory
`S` strictly under `D` yields an archive entry of its own, named relative to
the parent of `D`. -/
theorem C10_subdirectory_entries (fs : FS) (D S dest : FPath) (t : DateTime)
    (hD : fs.isDirAt D = true)
    (hS : fs.lookup S = some FKind.dir)
    (hU : isStrictlyUnder D S = true)
    (hclean : ∀ p ∈ fs.rglob D, (fs.lookup p).any FKind.nonFatal = true) :
    (⟨relativeTo (parentDir D) S, true, ""⟩ : ZipEntry) ∈
      ((perform_backup fs ⟨true, true⟩ [D] dest t).archiveOnDisk.getD []) := by
  have hDex : fs.pathExists D = true := by
    unfold FS.isDirAt at hD
    unfold FS.pathExists
    rcases hl : fs.lookup D with _ | k
    · rw [hl] at hD; simp at hD
    · rfl
  have h : ∀ s ∈ [D], sourceNonFatal fs s = true := by
    intro s hs
    simp only [List.mem_singleton] at hs
    subst hs
    simp only [sourceNonFatal, hDex, hD, if_true, Bool.not_true,
      Bool.false_or]
    exact List.all_eq_true.mpr hclean
  rw [perform_backup_ok fs [D] dest t h]
  simp only [List.map_cons, List.map_nil, List.flatten_cons,
    List.flatten_nil, List.append_nil, Option.getD_some]
  unfold zipOfSource
  rw [hDex, hD]
  simp only [Bool.not_true, Bool.false_eq_true, if_false, if_true]
  have hSg : S ∈ fs.rglob D := by
    unfold FS.rglob
    exact List.mem_filter.mpr ⟨lookup_mem_keys hS, hU⟩
  have hSsk : skippedAt fs S = false := by simp [skippedAt, hS]
  have hSf : S ∈ (fs.rglob D).filter (fun p => !skippedAt fs p) :=
    List.mem_filter.mpr ⟨hSg, by simp [hSsk]⟩
  have : mkEntry fs (relativeTo (parentDir D) S) S =
      ⟨relativeTo (parentDir D) S, true, ""⟩ := by
    simp [mkEntry, hS]
  exact this ▸ List.mem_map_of_mem _ hSf

/-- Witness for C10: the subdirectory `sub` of the example directory gets
its own archive entry `D/sub`. -/
theorem C10_witness :
    (⟨relativeTo (parentDir ["r", "D"]) ["r", "D", "sub"], true, ""⟩ : ZipEntry) ∈
      ((perform_backup fsC2 ⟨true, true⟩ [["r", "D"]] ["dst"] t0).archiveOnDisk.getD []) :=
  C10_subdirectory_entries fsC2 ["r", "D"] ["r", "D", "sub"] ["dst"] t0
    (by decide) (by decide) (by decide) (by decide)

/-- C5 as frozen is false: only `PermissionError` is caught per file. In
`fsC5` the file `bad.txt` raises a different OS error during the traversal
of `D`; it is not appended to the skip list (which stays empty), the
remaining file `c.txt` is never reached, and the whole build fails with the
per-file error. -/
theorem C5_counterexample :
    ((perform_backup fsC5 ⟨true, true⟩ [["r", "D"]] ["dst"] t0).report.succeeded = false) ∧
    ((perform_backup fsC5 ⟨true, true⟩ [["r", "D"]] ["dst"] t0).report.skippedPaths = []) ∧
    ((perform_backup fsC5 ⟨true, true⟩ [["r", "D"]] ["dst"] t0).report.buildError =
      some (BuildError.fileReadError ["r", "D", "bad.txt"])) ∧
    ((perform_backup fsC5 ⟨true, true⟩ [["r", "D"]] ["dst"] t0).archiveOnDisk =
      some [⟨["D", "a.txt"], false, "A"⟩]) := by
  decide

/-- C5 amended: every per-file permission failure is caught individually —
the failing file is appended to the skip list, traversal of the remaining
files and sources continues, and permission failures alone never make the
build fail; per-file failures other than `PermissionError` are not caught
individually and abort the whole build. -/
theorem C5_permission_failures_skipped (fs : FS) (sources : List FPath)
    (dest : FPath) (t : DateTime) (P : FPath)
    (h : ∀ s ∈ sources, sourceNonFatal fs s = true)
    (hP : fs.lookup P = some (FKind.file FileAccess.permDenied))
    (hPin : ∃ D ∈ sources, fs.isDirAt D = true ∧ P ∈ fs.rglob D) :
    ((perform_backup fs ⟨true, true⟩ sources dest t).report.succeeded = true) ∧
    (P ∈ (perform_backup fs ⟨true, true⟩ sources dest t).report.skippedPaths) ∧
    (∀ D q c2, D ∈ sources → fs.isDirAt D = true → q ∈ fs.rglob D →
      fs.lookup q = some (FKind.file (FileAccess.readable c2)) →
      (⟨relativeTo (parentDir D) q, false, c2⟩ : ZipEntry) ∈
        ((perform_backup fs ⟨true, true⟩ sources dest t).archiveOnDisk.getD [])) := by
  rw [perform_backup_ok fs sources dest t h]
  refine ⟨rfl, ?_, ?_⟩
  · obtain ⟨D, hDmem, hDdir, hPrg⟩ := hPin
    have hDex : fs.pathExists D = true := by
      unfold FS.isDirAt at hDdir
      unfold FS.pathExists
      rcases hl : fs.lookup D with _ | k
      · rw [hl] at hDdir; simp at hDdir
      · rfl
    have hPs : P ∈ skipOfSource fs D := by
      unfold skipOfSource
      rw [hDex, hDdir]
      simp only [Bool.not_true, Bool.false_eq_true, if_false, if_true]
      exact List.mem_filter.mpr ⟨hPrg, by simp [skippedAt, hP]⟩
    simp only [BuildReport.skippedPaths]
    exact List.mem_flatten.mpr ⟨skipOfSource fs D,
      List.mem_map_of_mem _ hDmem, hPs⟩
  · intro D q c2 hDmem hDdir hqrg hq
    have hDex : fs.pathExists D = true := by
      unfold FS.isDirAt at hDdir
      unfold FS.pathExists
      rcases hl : fs.lookup D with _ | k
      · rw [hl] at hDdir; simp at hDdir
      · rfl
    have hqz : (⟨relativeTo (parentDir D) q, false, c2⟩ : ZipEntry) ∈
        zipOfSource fs D := by
      unfold zipOfSource
      rw [hDex, hDdir]
      simp only [Bool.not_true, Bool.false_eq_true, if_false, if_true]
      have hqf : q ∈ (fs.rglob D).filter (fun p => !skippedAt fs p) :=
        List.mem_filter.mpr ⟨hqrg, by simp [skippedAt, hq]⟩
      have : mkEntry fs (relativeTo (parentDir D) q) q =
          ⟨relativeTo (parentDir D) q, false, c2⟩ := by simp [mkEntry, hq]
      exact this ▸ List.mem_map_of_mem _ hqf
    simp only [BuildOutcome.archiveOnDisk, Option.getD_some]
    exact List.mem_flatten.mpr ⟨zipOfSource fs D,
      List.mem_map_of_mem _ hDmem, hqz⟩

/-- Witness for the amended C5 on `fsPerm`: the permission-denied file is
skipped, the build still succeeds, and the two readable siblings are both
archived. -/
theorem C5_witness :
    ((perform_backup fsPerm ⟨true, true⟩ [["r", "D"]] ["dst"] t0).report.succeeded = true) ∧
    (["r", "D", "locked.txt"] ∈
      (perform_backup fsPerm ⟨true, true⟩ [["r", "D"]] ["dst"] t0).report.skippedPaths) ∧
    ((⟨["D", "c.txt"], false, "C"⟩ : ZipEntry) ∈
      ((perform_backup fsPerm ⟨true, true⟩ [["r", "D"]] ["dst"] t0).archiveOnDisk.getD [])) := by
  have hmain := C5_permission_failures_skipped fsPerm [["r", "D"]] ["dst"]
    t0 ["r", "D", "locked.txt"] (by decide) (by decide)
    ⟨["r", "D"], by decide, by decide, by decide⟩
  refine ⟨hmain.1, hmain.2.1, ?_⟩
  have := hmain.2.2 ["r", "D"] ["r", "D", "c.txt"] "C" (by decide)
    (by decide) (by decide) (by decide)
  simpa using this

/-- C6: when archive creation cannot complete at all — a fatal error while
opening the archive, an uncaught error while writing, or a failure while
finalizing — the build yields a failed report carrying the triggering error
(an ordinary return value, not a crash), and whatever part of the archive
was already written stays on disk, undeleted; an open failure means no file
was ever created. -/
theorem C6_fatal_error_reporting (fs : FS) (sources : List FPath)
    (dest : FPath) (t : DateTime) :
    (∀ fin : Bool,
      ((perform_backup fs ⟨false, fin⟩ sources dest t).report.succeeded = false) ∧
      ((perform_backup fs ⟨false, fin⟩ sources dest t).report.buildError =
        some BuildError.openFailed) ∧
      ((perform_backup fs ⟨false, fin⟩ sources dest t).archiveOnDisk = none)) ∧
    (∀ (st : BuildState) (e : BuildError) (fin : Bool),
      processSources fs ⟨[], []⟩ sources = .inr (st, e) →
      ((perform_backup fs ⟨true, fin⟩ sources dest t).report.succeeded = false) ∧
      ((perform_backup fs ⟨true, fin⟩ sources dest t).report.buildError = some e) ∧
      ((perform_backup fs ⟨true, fin⟩ sources dest t).archiveOnDisk = some st.zip)) ∧
    (∀ st : BuildState,
      processSources fs ⟨[], []⟩ sources = .inl st →
      ((perform_backup fs ⟨true, false⟩ sources dest t).report.succeeded = false) ∧
      ((perform_backup fs ⟨true, false⟩ sources dest t).report.buildError =
        some BuildError.finalizeFailed) ∧
      ((perform_backup fs ⟨true, false⟩ sources dest t).archiveOnDisk = some st.zip)) := by
  refine ⟨fun fin => ?_, fun st e fin hps => ?_, fun st hps => ?_⟩
  · simp [perform_backup]
  · simp [perform_backup, hps]
  · simp [perform_backup, hps]

/-- Witness for C6: an open failure, the mid-write fatal error of `fsC5`
(partial archive kept), and a finalize failure, each at concrete inputs. -/
theorem C6_witness :
    ((perform_backup fsC5 ⟨false, true⟩ [["r", "D"]] ["dst"] t0).report.succeeded = false) ∧
    ((perform_backup fsC5 ⟨false, true⟩ [["r", "D"]] ["dst"] t0).archiveOnDisk = none) ∧
    ((perform_backup fsC5 ⟨true, true⟩ [["r", "D"]] ["dst"] t0).report.buildError =
      some (BuildError.fileReadError ["r", "D", "bad.txt"])) ∧
    ((perform_backup fsC5 ⟨true, true⟩ [["r", "D"]] ["dst"] t0).archiveOnDisk =
      some [⟨["D", "a.txt"], false, "A"⟩]) ∧
    ((perform_backup fsC1 ⟨true, false⟩ [["r", "F.txt"]] ["dst"] t0).report.succeeded = false) ∧
    ((perform_backup fsC1 ⟨true, false⟩ [["r", "F.txt"]] ["dst"] t0).report.buildError =
      some BuildError.finalizeFailed) := by
  have h1 := (C6_fatal_error_reporting fsC5 [["r", "D"]] ["dst"] t0).1 true
  have h2 := (C6_fatal_error_reporting fsC5 [["r", "D"]] ["dst"] t0).2.1
    ⟨[⟨["D", "a.txt"], false, "A"⟩], []⟩
    (BuildError.fileReadError ["r", "D", "bad.txt"]) true (by decide)
  have h3 := (C6_fatal_error_reporting fsC1 [["r", "F.txt"]] ["dst"] t0).2.2
    ⟨[⟨baseName ["r", "F.txt"], false, "hello"⟩], []⟩ (by decide)
  exact ⟨h1.1, h1.2.2, h2.2.1, h2.2.2, h3.1, h3.2.1⟩

/-- C3 as frozen is false: removing an id with no corresponding entry does
not return `NotFoundError` — the unconditional `DELETE` reports success and
leaves the registry unchanged — and a second removal of an already-removed
id likewise reports success rather than `NotFoundError`. -/
theorem C3_counterexample :
    ((Registry.remove ⟨2, [(1, "/a")]⟩ 5).isNotFoundError = false) ∧
    ((Registry.remove ⟨2, [(1, "/a")]⟩ 5).registry = ⟨2, [(1, "/a")]⟩) ∧
    ((Registry.remove
        (Registry.remove ⟨2, [(1, "/a")]⟩ 1).registry 1).isNotFoundError =
      false) := by
  decide

/-- C3 amended: `remove(id)` never returns `NotFoundError`; for an id with
no corresponding entry it is a silent no-op reported as success, leaving the
registry unchanged; for an existing id, after `remove(id)` the listing no
longer contains `id`, and a second `remove(id)` is again a success-reported
no-op rather than a `NotFoundError`. -/
theorem C3_remove_silent_noop (r : Registry) (i : Nat) :
    ((Registry.remove r i).isNotFoundError = false) ∧
    (i ∉ r.ids → (Registry.remove r i).registry = r) ∧
    (i ∉ (Registry.remove r i).registry.ids) ∧
    ((Registry.remove (Registry.remove r i).registry i).registry =
      (Registry.remove r i).registry) := by
  refine ⟨rfl, ?_, ?_, ?_⟩
  · intro hi
    unfold Registry.remove RemoveOutcome.registry
    have hf : r.rows.filter (fun row => !decide (row.1 = i)) = r.rows := by
      apply List.filter_eq_self.mpr
      intro row hrow
      simp only [Bool.not_eq_true', decide_eq_false_iff_not]
      intro he
      exact hi (he ▸ List.mem_map_of_mem Prod.fst hrow)
    simp only [ne_eq, decide_not]
    rw [hf]
  · unfold Registry.remove RemoveOutcome.registry Registry.ids
    intro hmem
    rcases List.mem_map.mp hmem with ⟨row, hrowmem, hfst⟩
    have hne := (List.mem_filter.mp hrowmem).2
    simp only [ne_eq, decide_not, Bool.not_eq_eq_eq_not, Bool.not_true,
      decide_eq_false_iff_not] at hne
    exact hne hfst
  · unfold Registry.remove RemoveOutcome.registry
    simp [List.filter_filter]

/-- Witness for the amended C3 at a concrete registry. -/
theorem C3_witness :
    ((Registry.remove ⟨2, [(1, "/a")]⟩ 5).isNotFoundError = false) ∧
    ((Registry.remove ⟨2, [(1, "/a")]⟩ 5).registry = ⟨2, [(1, "/a")]⟩) ∧
    (5 ∉ (Registry.remove ⟨2, [(1, "/a")]⟩ 5).registry.ids) ∧
    ((Registry.remove (Registry.remove ⟨2, [(1, "/a")]⟩ 5).registry 5).registry =
      (Registry.remove ⟨2, [(1, "/a")]⟩ 5).registry) := by
  have h := C3_remove_silent_noop ⟨2, [(1, "/a")]⟩ 5
  exact ⟨h.1, h.2.1 (by decide), h.2.2.1, h.2.2.2⟩

/-- C4 as frozen is false: the string `"ab\n"` contains the newline
character, which is outside the allow-listed set, yet Python's `$` anchor
matches just before a single trailing newline, so `validate_path` accepts
it; `add("ab\n")` therefore does not return the format `ValidationError` —
it proceeds to the filesystem, inserting the path when it exists (a registry
change) and reporting `NotFound` when it does not. -/
theorem C4_counterexample :
    (('\n' ∈ "ab\n".data) ∧ allowedChar '\n' = false) ∧
    (validate_path "ab\n" = true) ∧
    (Registry.add (fun s => s) (fun _ => true) ⟨1, []⟩ "ab\n" =
      ({ nextId := 2, rows := [(1, "ab\n")] }, Except.ok (1, "ab\n"))) ∧
    (Registry.add (fun s => s) (fun _ => false) ⟨1, []⟩ "ab\n" =
      (⟨1, []⟩, Except.error AddError.notFound)) := by
  refine ⟨⟨by decide, by decide⟩, by decide, rfl, rfl⟩

/-- C4 amended: for every path string containing a character outside the
allow-listed set — excepting only strings made of a nonempty allow-listed
run followed by a single trailing newline, which the Python `$` anchor lets
through — `add(p)` returns the `InvalidFormat` validation error and the
registry is unchanged. -/
theorem C4_invalid_format_rejected (resolveFn : String → String)
    (existsFn : String → Bool) (r : Registry) (p : String)
    (hbad : ¬ p.data.all allowedChar = true)
    (hnl : ¬ (p.data.getLast? = some '\n' ∧
      matchesCore p.data.dropLast = true)) :
    Registry.add resolveFn existsFn r p = (r, .error .invalidFormat) := by
  have hv : validate_path p = false := by
    unfold validate_path
    apply Bool.or_eq_false_iff.mpr
    constructor
    · have hall : p.data.all allowedChar = false := by
        cases hcase : p.data.all allowedChar
        · rfl
        · exact absurd hcase hbad
      simp [matchesCore, hall]
    · cases hg : p.data.getLast? with
      | none => rfl
      | some c =>
        by_cases hc : c = '\n'
        · subst hc
          have hm : matchesCore p.data.dropLast = false := by
            cases hcase : matchesCore p.data.dropLast
            · rfl
            · exact absurd ⟨hg, hcase⟩ hnl
          simp [hm]
        · simp [hc]
  unfold Registry.add
  rw [hv]
  rfl

/-- Witness for the amended C4: a path with an asterisk is rejected with
`InvalidFormat` and the registry is left unchanged. -/
theorem C4_witness :
    Registry.add (fun s => s) (fun _ => true) ⟨1, []⟩ "a*b" =
      (⟨1, []⟩, Except.error AddError.invalidFormat) :=
  C4_invalid_format_rejected (fun s => s) (fun _ => true) ⟨1, []⟩ "a*b"
    (by decide) (by decide)

/-- C7: whenever `add(p)` succeeds, the stored entry's path is the resolved
form of `p` (not the raw input), and the subsequent listing contains that
entry. -/
theorem C7_add_list_roundtrip (resolveFn : String → String)
    (existsFn : String → Bool) (r r' : Registry) (p rp : String) (i : Nat)
    (h : Registry.add resolveFn existsFn r p = (r', Except.ok (i, rp))) :
    rp = resolveFn p ∧ (i, resolveFn p) ∈ r'.listRows := by
  unfold Registry.add at h
  by_cases hv : validate_path p = true
  · by_cases he : existsFn (resolveFn p) = true
    · simp only [hv, he, Bool.not_true, Bool.false_eq_true, if_false,
        if_true, Prod.mk.injEq, Except.ok.injEq] at h
      obtain ⟨h1, h2, h3⟩ := h
      subst h2 h3
      refine ⟨rfl, ?_⟩
      rw [← h1]
      unfold Registry.listRows
      simp
    · have he' : existsFn (resolveFn p) = false := by simpa using he
      simp [hv, he'] at h
  · have hv' : validate_path p = false := by simpa using hv
    simp [hv'] at h

/-- Witness for C7 at a concrete resolver and registry. -/
theorem C7_witness :
    ("/x/y" = (fun _ : String => "/x/y") "y") ∧
    ((1, (fun _ : String => "/x/y") "y") ∈
      Registry.listRows ⟨2, [(1, "/x/y")]⟩) :=
  C7_add_list_roundtrip (fun _ => "/x/y") (fun _ => true) ⟨1, []⟩
    ⟨2, [(1, "/x/y")]⟩ "y" "/x/y" 1 rfl

/-- C8 as frozen is false for the original variant's Builder: invoked with a
destination that does not yet exist, `perform_backup` of
src/backup_script_original.py creates the destination directory itself. -/
theorem C8_counterexample :
    (perform_backup_original fsC1 ⟨true, true⟩ false true [["r", "F.txt"]]
      ["dst"] t0).map BuildOutcome.createdDestDir = some true := by
  decide

/-- C8 amended: the src/backup-script.py Builder never creates the
destination directory — destination existence and writability stay the
caller's job, and an absent or unwritable destination surfaces as a failed
open with no archive file — whereas the original variant's Builder creates
a missing destination itself (no creation happens there only when the
destination already exists). -/
theorem C8_no_destination_creation (fs : FS) (env : IOEnv)
    (sources : List FPath) (dest : FPath) (t : DateTime) :
    ((perform_backup fs env sources dest t).createdDestDir = false) ∧
    (env.destOpenOk = false →
      ((perform_backup fs env sources dest t).report.succeeded = false) ∧
      ((perform_backup fs env sources dest t).archiveOnDisk = none)) ∧
    (∀ dc : Bool,
      (perform_backup_original fs env true dc sources dest t).map
        BuildOutcome.createdDestDir = some false) := by
  refine ⟨?_, ?_, ?_⟩
  · unfold perform_backup
    by_cases henv : env.destOpenOk = false
    · simp [henv]
    · have henv' : env.destOpenOk = true := by simpa using henv
      rcases hps : processSources fs ⟨[], []⟩ sources with st | ⟨st, e⟩
      · by_cases hfin : env.finalizeOk = true
        · simp [henv', hps, hfin]
        · have hf : env.finalizeOk = false := by simpa using hfin
          simp [henv', hps, hf]
      · simp [henv', hps]
  · intro hopen
    simp [perform_backup, hopen]
  · intro dc
    rfl

/-- Witness for the amended C8 at concrete inputs, including one with an
unwritable destination. -/
theorem C8_witness :
    ((perform_backup fsC1 ⟨false, true⟩ [["r", "F.txt"]] ["dst"] t0).createdDestDir = false) ∧
    ((perform_backup fsC1 ⟨false, true⟩ [["r", "F.txt"]] ["dst"] t0).report.succeeded = false) ∧
    ((perform_backup fsC1 ⟨false, true⟩ [["r", "F.txt"]] ["dst"] t0).archiveOnDisk = none) ∧
    ((perform_backup_original fsC1 ⟨true, true⟩ true false [["r", "F.txt"]]
      ["dst"] t0).map BuildOutcome.createdDestDir = some false) := by
  have h := C8_no_destination_creation fsC1 ⟨false, true⟩ [["r", "F.txt"]]
    ["dst"] t0
  exact ⟨h.1, (h.2.1 rfl).1, (h.2.1 rfl).2,
    (C8_no_destination_creation fsC1 ⟨true, true⟩ [["r", "F.txt"]] ["dst"]
      t0).2.2 false⟩

/-- C9: the archive is created inside the given destination directory under
the name `backup_` + stamp + `.zip`, where the stamp renders the day,
month, year, hour, minute and second of the build's start instant as
zero-padded decimal digit blocks of widths 2, 2, 4, 2, 2, 2 joined by a
single underscore — a fixed numeric layout containing only digits, with no
locale-dependent component. -/
theorem C9_archive_name_layout (fs : FS) (env : IOEnv)
    (sources : List FPath) (dest : FPath) (t : DateTime) (hv : t.Valid) :
    ((perform_backup fs env sources dest t).report.archivePath =
      dest ++ [backupName t]) ∧
    ((backupName t).data = "backup_".data ++
      (pad2 t.day ++ pad2 t.month ++ natDigits t.year ++
        '_' :: (pad2 t.hour ++ pad2 t.minute ++ pad2 t.second)) ++
      ".zip".data) ∧
    ((pad2 t.day).length = 2 ∧ (pad2 t.month).length = 2 ∧
      (natDigits t.year).length = 4 ∧ (pad2 t.hour).length = 2 ∧
      (pad2 t.minute).length = 2 ∧ (pad2 t.second).length = 2) ∧
    ((pad2 t.day ++ pad2 t.month ++ natDigits t.year ++ pad2 t.hour ++
      pad2 t.minute ++ pad2 t.second).all Char.isDigit = true) := by
  obtain ⟨h1, h2, h3, h4, h5, h6, h7, h8, h9⟩ := hv
  refine ⟨?_, ?_, ⟨?_, ?_, ?_, ?_, ?_, ?_⟩, ?_⟩
  · unfold perform_backup
    by_cases henv : env.destOpenOk = false
    · simp [henv]
    · have henv' : env.destOpenOk = true := by simpa using henv
      rcases hps : processSources fs ⟨[], []⟩ sources with st | ⟨st, e⟩
      · by_cases hfin : env.finalizeOk = true
        · simp [henv', hps, hfin]
        · have hf : env.finalizeOk = false := by simpa using hfin
          simp [henv', hps, hf]
      · simp [henv', hps]
  · simp [backupName, timestampStr, String.data_append, List.append_assoc]
  · exact pad2_length t.day (by omega)
  · exact pad2_length t.month (by omega)
  · exact natDigits_year_length t.year h5 h6
  · exact pad2_length t.hour (by omega)
  · exact pad2_length t.minute (by omega)
  · exact pad2_length t.second (by omega)
  · simp only [List.all_append, pad2_digits t.day (by omega),
      pad2_digits t.month (by omega), natDigits_year_digits t.year h5 h6,
      pad2_digits t.hour (by omega), pad2_digits t.minute (by omega),
      pad2_digits t.second (by omega), Bool.and_self]

/-- Witness for C9 at the concrete instant `t0`. -/
theorem C9_witness :
    ((perform_backup fsC1 ⟨true, true⟩ [["r", "F.txt"]] ["dst"] t0).report.archivePath =
      ["dst"] ++ [backupName t0]) ∧
    ((backupName t0).data = "backup_".data ++
      (pad2 t0.day ++ pad2 t0.month ++ natDigits t0.year ++
        '_' :: (pad2 t0.hour ++ pad2 t0.minute ++ pad2 t0.second)) ++
      ".zip".data) ∧
    ((natDigits t0.year).length = 4) ∧
    ((pad2 t0.day ++ pad2 t0.month ++ natDigits t0.year ++ pad2 t0.hour ++
      pad2 t0.minute ++ pad2 t0.second).all Char.isDigit = true) := by
  have h := C9_archive_name_layout fsC1 ⟨true, true⟩ [["r", "F.txt"]]
    ["dst"] t0 (by decide)
  exact ⟨h.1, h.2.1, h.2.2.1.2.2.1, h.2.2.2⟩

end BackupScript
